import Mathlib

/-!
Verification of the FetchGuard token-lifecycle and request-dispatch engine.

This file gives a shallow embedding of the core of the repository
(`src/worker.ts`, `src/client.ts`, the domain allow-list matcher, the
refresh coordinator, the host dispatcher queue) and proves, or refutes,
the stated properties of that code.

Modelling conventions:
- JavaScript `string | null` fields become `Option String`; `number | null`
  (epoch milliseconds) becomes `Option Int`.
- A partial `TokenInfo` record distinguishes key absence from key presence:
  a field of type `Option (Option String)` is `none` when the key is absent
  and `some v` when the key is present with value `v` (where `v = none`
  covers both `null` and `undefined`, which the source collapses via
  `?? null`).  The `user` field carries arbitrary JS values, modelled by
  the small inductive `UserVal` that distinguishes `undefined`, `null`
  and an object tagged by a numeric id.
- Strings handled by the allow-list matcher are modelled as `List Char`
  so that all operations are kernel-computable.
-/

namespace FetchGuard

/-- JS values that can sit in the worker's `currentUser` slot: `undefined`,
`null`, or a user object (tagged by a numeric id for concrete examples). -/
inductive UserVal
  | undef
  | jsNull
  | obj (id : Nat)
deriving DecidableEq

/-- Partial token info returned by provider operations
(`src/types.ts`, interface `TokenInfo`): every key is optional.
The outer `Option` records key presence; for `token`, `expiresAt` and
`refreshToken` the inner `Option` is the JS `null` (the source applies
`?? null`, so a present `undefined` behaves as `null`). -/
structure TokenInfo where
  token : Option (Option String) := none
  expiresAt : Option (Option Int) := none
  user : Option UserVal := none
  refreshToken : Option (Option String) := none
deriving DecidableEq

/-- In-memory token state owned by the worker IIFE closure
(`src/worker.ts` lines 28-31): `accessToken`, `expiresAt`, `currentUser`,
`refreshToken`. -/
structure TokenState where
  accessToken : Option String
  expiresAt : Option Int
  currentUser : UserVal
  refreshToken : Option String
deriving DecidableEq

/-- Initial token state at worker startup: all fields null, user undefined. -/
def initTokenState : TokenState :=
  { accessToken := none, expiresAt := none, currentUser := UserVal.undef,
    refreshToken := none }

/-- Embedding of `setTokenState` (`src/worker.ts` lines 225-246): each of the
four fields is overwritten exactly when the corresponding key is present in
the partial `tokenInfo`; an absent key preserves the existing value.  The
`emitEvent` flag only triggers `postAuthChanged` and does not affect the
state, so it is modelled where events are modelled (the worker dispatch). -/
def setTokenState (tokenInfo : TokenInfo) (st : TokenState) : TokenState :=
  { accessToken :=
      match tokenInfo.token with
      | some v => v
      | none => st.accessToken
    expiresAt :=
      match tokenInfo.expiresAt with
      | some v => v
      | none => st.expiresAt
    currentUser :=
      match tokenInfo.user with
      | some v => v
      | none => st.currentUser
    refreshToken :=
      match tokenInfo.refreshToken with
      | some v => v
      | none => st.refreshToken }

/-- Derived `authenticated` flag computed by `postAuthChanged`
(`src/worker.ts` lines 252-260):
`accessToken !== null && accessToken !== '' && (expiresAt === null || expiresAt > now)`. -/
def authenticatedNow (st : TokenState) (now : Int) : Bool :=
  match st.accessToken with
  | none => false
  | some t =>
      t != "" &&
        (match st.expiresAt with
         | none => true
         | some e => decide (e > now))

/-- Default proactive-refresh window (`src/constants.ts`,
`DEFAULT_REFRESH_EARLY_MS = 60_000`). -/
def DEFAULT_REFRESH_EARLY_MS : Int := 60000

/-- The effective refresh-early window: `config?.refreshEarlyMs ?? DEFAULT`
(`src/worker.ts` line 47); `none` models a null config or an absent field. -/
def refreshEarlyOf (cfgEarly : Option Int) : Int :=
  cfgEarly.getD DEFAULT_REFRESH_EARLY_MS

/-- Guard of the immediate cached-token return in `ensureValidToken`
(`src/worker.ts` lines 46-52).  JS truthiness of `accessToken && expiresAt`
excludes the empty string and the number 0; the inner test is
`expiresAt - Date.now() > refreshEarlyMs`. -/
def tokenFresh (cfgEarly : Option Int) (now : Int) (st : TokenState) : Bool :=
  match st.accessToken, st.expiresAt with
  | some t, some e =>
      t != "" && e != 0 && decide (e - now > refreshEarlyOf cfgEarly)
  | _, _ => false

/-- Control-flow outcome of the synchronous head of `ensureValidToken`
(`src/worker.ts` lines 40-58): fail for a missing provider, return the
cached token, await the in-flight refresh, or start a new refresh. -/
inductive TokenDecision
  | notInit
  | cached (tok : String)
  | joinPending
  | startRefresh
deriving DecidableEq

/-- Second stage of `ensureValidToken` once the cached-token return did not
fire (`src/worker.ts` lines 54-58): join the pending refresh when
`refreshPromise` is non-null, otherwise start a new one. -/
def ensureStage2 (inflight : Bool) : TokenDecision :=
  if inflight then TokenDecision.joinPending else TokenDecision.startRefresh

/-- Synchronous head of `ensureValidToken` (`src/worker.ts` lines 40-58),
deciding between the four outcomes of `TokenDecision`. -/
def ensureDecision (providerSet : Bool) (cfgEarly : Option Int) (now : Int)
    (inflight : Bool) (st : TokenState) : TokenDecision :=
  if !providerSet then TokenDecision.notInit
  else
    match st.accessToken, st.expiresAt with
    | some t, some e =>
        if t != "" && e != 0 && decide (e - now > refreshEarlyOf cfgEarly) then
          TokenDecision.cached t
        else ensureStage2 inflight
    | _, _ => ensureStage2 inflight

/-- The clearing update applied when `provider.refreshToken` fails
(`src/worker.ts` line 69):
`setTokenState({ token: null, expiresAt: null, user: undefined, refreshToken: undefined })`.
All four keys are present (the two `undefined` values coalesce to `null`
via `?? null`, and `user` is stored as `undefined` directly). -/
def refreshFailureInfo : TokenInfo :=
  { token := some none, expiresAt := some none, user := some UserVal.undef,
    refreshToken := some none }

/-- Outcome of one awaited `provider.refreshToken` call as consumed by the
refresh body (`src/worker.ts` lines 59-82): an error result, a success with
null data (no state change), or a success carrying a `TokenInfo`. -/
inductive RefreshOutcome
  | success (info : TokenInfo)
  | nullData
  | failure
deriving DecidableEq

/-- State transformation performed by the refresh body on its outcome
(`src/worker.ts` lines 66-78). -/
def applyRefreshOutcome (o : RefreshOutcome) (st : TokenState) : TokenState :=
  match o with
  | RefreshOutcome.success info => setTokenState info st
  | RefreshOutcome.nullData => st
  | RefreshOutcome.failure => setTokenState refreshFailureInfo st

/-! ### Refresh coordinator as an interleaving machine

The worker is single-threaded: callers of `ensureValidToken` interleave only
at `await` points.  The synchronous segment of one call runs from entry up to
(and including) the invocation of `provider.refreshToken` inside the async
body — invoking an async function runs its body synchronously until its first
`await` — after which the caller suspends on `await refreshPromise`.  The
refresh completion (result applied, `finally` clearing `refreshPromise`,
waiters resumed) is a second atomic segment: the resumed waiters read
`accessToken` on the microtask queue before any new message event runs.
The machine below has exactly these two kinds of atomic steps. -/

/-- Status of one logical caller of `ensureValidToken`: not yet entered,
suspended on the shared `refreshPromise`, or returned with `ok(accessToken)`. -/
inductive CallerStatus
  | idle
  | waiting
  | done (tok : Option String)
deriving DecidableEq

/-- Global state of the refresh coordinator: the token state, whether
`refreshPromise` is non-null, how many times `provider.refreshToken` has been
invoked, and each caller's status. -/
structure RefreshMach where
  st : TokenState
  inflight : Bool
  refreshCount : Nat
  callers : Nat → CallerStatus

/-- Atomic events of the coordinator: caller `i` runs the synchronous head of
`ensureValidToken`, or the in-flight refresh completes. -/
inductive RefreshEv
  | enter (i : Nat)
  | complete

/-- One atomic step.  `enter i` follows `ensureDecision` (provider present):
a fresh token resolves the caller immediately; otherwise the caller either
joins the pending refresh or starts one — starting sets `refreshPromise`
(modelled by `inflight`) and invokes `provider.refreshToken`, counted by
`refreshCount`.  `complete` applies the refresh outcome `o` to the token
state (`src/worker.ts` lines 66-78), clears `refreshPromise` in the
`finally` block (line 80), and resumes every waiter, each returning
`ok(accessToken)` read from the post-refresh state (lines 56, 85). -/
def rstep (cfgEarly : Option Int) (now : Int) (o : RefreshOutcome)
    (m : RefreshMach) : RefreshEv → RefreshMach
  | RefreshEv.enter i =>
      if m.callers i = CallerStatus.idle then
        match ensureDecision true cfgEarly now m.inflight m.st with
        | TokenDecision.notInit => m
        | TokenDecision.cached t =>
            { m with callers := fun j =>
                if j = i then CallerStatus.done (some t) else m.callers j }
        | TokenDecision.joinPending =>
            { m with callers := fun j =>
                if j = i then CallerStatus.waiting else m.callers j }
        | TokenDecision.startRefresh =>
            { m with inflight := true, refreshCount := m.refreshCount + 1,
                     callers := fun j =>
                       if j = i then CallerStatus.waiting else m.callers j }
      else m
  | RefreshEv.complete =>
      if m.inflight then
        let st2 := applyRefreshOutcome o m.st
        { st := st2, inflight := false, refreshCount := m.refreshCount,
          callers := fun j =>
            if m.callers j = CallerStatus.waiting then
              CallerStatus.done st2.accessToken
            else m.callers j }
      else m

/-- Run a schedule (a list of atomic events) from a machine state. -/
def rexec (cfgEarly : Option Int) (now : Int) (o : RefreshOutcome)
    (evs : List RefreshEv) (m : RefreshMach) : RefreshMach :=
  evs.foldl (rstep cfgEarly now o) m

/-- The machine state at worker startup with every caller idle. -/
def initMach (st : TokenState) : RefreshMach :=
  { st := st, inflight := false, refreshCount := 0,
    callers := fun _ => CallerStatus.idle }

/-! ### Domain allow-list matcher

Embedding of `validateDomain` (`src/worker.ts` lines 91-125).  Hostname,
port and the configured pattern entries are `List Char`.  URL parsing itself
(the `new URL(url)` call) is outside the embedding: a URL is represented by
its parse result, `none` for an unparseable URL and `some (hostname, port)`
otherwise, where `port` is the empty list when the URL uses its scheme's
default port (as `URL.port` then yields the empty string). -/

/-- Coerce a string literal to the character-list representation. -/
def str (s : String) : List Char := s.toList

/-- Hostname comparison of one allow-list pattern (`src/worker.ts` lines
106-111): a pattern starting with the two characters `*.` matches the bare
suffix domain or anything ending in a dot followed by it; any other pattern
requires exact hostname equality. -/
def hostPatternMatch (hostname pattern : List Char) : Bool :=
  let isWildcard := pattern.take 2 == ['*', '.']
  let base := if isWildcard then pattern.drop 2 else pattern
  if isWildcard then hostname == base || ('.' :: base).isSuffixOf hostname
  else hostname == base

/-- Check of one allow-list entry against a hostname and port, mirroring one
iteration of the loop in `src/worker.ts` lines 101-120.  The source computes
`idx = entry.lastIndexOf(':')` and treats the entry as carrying a port only
when that colon is the entry's sole colon (`entry.indexOf(':') === idx`);
an entry with exactly one colon therefore splits at that colon (the part
before it is the host pattern, the part after it the required port), and
any other entry is used whole with no port requirement.  A matching host
with a mismatched port falls through to the next entry. -/
def entryAccepts (hostname port entry : List Char) : Bool :=
  let hasPort := entry.count ':' == 1
  let pattern := if hasPort then entry.takeWhile (fun c => c != ':') else entry
  let entryPort :=
    if hasPort then (entry.dropWhile (fun c => c != ':')).tail else []
  if !(hostPatternMatch hostname pattern) then false
  else if hasPort then port == entryPort
  else true

/-- Embedding of `validateDomain`: an empty pattern list accepts every URL
before parsing; otherwise an unparseable URL is rejected and a parsed URL is
accepted exactly when some entry accepts its hostname and port (the source
returns on the first matching entry). -/
def validateDomain (allowedDomains : List (List Char))
    (parsed : Option (List Char × List Char)) : Bool :=
  if allowedDomains.isEmpty then true
  else
    match parsed with
    | none => false
    | some hp => allowedDomains.any (fun entry => entryAccepts hp.1 hp.2 entry)

/-! ### Worker runtime: message dispatch

Embedding of the `self.onmessage` handler (`src/worker.ts` lines 266-406)
and `makeApiRequest` (lines 130-209), processing one inbound message at a
time (the worker is single-threaded; `refreshPromise` is null before and
after each fully processed message, so it does not appear in the state).
The network and the provider are oracles supplied in a `WorkerEnv`. -/

/-- Error codes used by the worker, from the error-definition module
(`errors.ts` variant exporting `NetworkErrors`, which `worker.ts` imports):
each `defineError` carries the HTTP-like status listed in that file.
`PROVIDER_ERROR` stands for the provider's own error result, forwarded
verbatim by `sendError(id, result)`. -/
inductive ErrCode
  | INIT_ERROR
  | DOMAIN_NOT_ALLOWED
  | NETWORK_ERROR
  | HTTP_ERROR
  | REQUEST_CANCELLED
  | UNEXPECTED
  | UNKNOWN_MESSAGE
  | PROVIDER_ERROR
deriving DecidableEq

/-- Status attached to each defined error (`defineError` third argument). -/
def errDetailStatus : ErrCode → Nat
  | ErrCode.INIT_ERROR => 500
  | ErrCode.DOMAIN_NOT_ALLOWED => 403
  | ErrCode.NETWORK_ERROR => 500
  | ErrCode.HTTP_ERROR => 500
  | ErrCode.REQUEST_CANCELLED => 499
  | ErrCode.UNEXPECTED => 500
  | ErrCode.UNKNOWN_MESSAGE => 400
  | ErrCode.PROVIDER_ERROR => 500

/-- An error `Result` as observed by the FETCH handler: the first error's
code, its message text, and the result's status (assumed to reflect the
defined status of the error detail, per the `ts-micro-result` library). -/
structure WErr where
  code : ErrCode
  msg : List Char
  status : Nat
deriving DecidableEq

/-- Body as placed in a `FETCH_RESULT` payload: binary content types are
base64-encoded before transmission, text content types pass through
(`src/worker.ts` lines 190-196).  The base64 alphabet itself is not
modelled; the constructor records which encoding was applied to which
raw body. -/
inductive BodyOut
  | text (b : List Char)
  | base64Of (raw : List Char)
deriving DecidableEq

/-- Containment of one character sequence inside another, the model of
JavaScript `String.prototype.includes`. -/
def containsSeq (needle hay : List Char) : Bool :=
  decide (needle <:+: hay)

/-- Embedding of `isBinaryContentType` (`src/utils/binary.ts`): lowercase
the content type and treat it as text when it contains any of the listed
fragments, binary otherwise. -/
def isBinaryContentType (ct : List Char) : Bool :=
  let normalized := ct.map Char.toLower
  if containsSeq (str "text/") normalized then false
  else if containsSeq (str "json") normalized then false
  else if containsSeq (str "xml") normalized then false
  else if containsSeq (str "javascript") normalized then false
  else if containsSeq (str "ecmascript") normalized then false
  else if containsSeq (str "html") normalized then false
  else true

/-- Success payload of a completed request (`ApiResponse` as assembled in
`src/worker.ts` lines 183-207): body, raw HTTP status, content type, and
the response headers (populated only when `includeHeaders` was requested). -/
structure ApiResp where
  body : BodyOut
  status : Nat
  contentType : List Char
  headers : List (List Char × List Char)
deriving DecidableEq

/-- Worker configuration fields relevant to the embedded core. -/
structure WCfg where
  allowedDomains : List (List Char)
  refreshEarlyMs : Option Int
deriving DecidableEq

/-- Worker closure state across messages: the `config` and `provider` slots
set by SETUP, and the token state. -/
structure WorkerState where
  config : Option WCfg
  provider : Bool
  tok : TokenState
deriving DecidableEq

/-- The worker state at startup: no config, no provider, empty token state. -/
def initWorker : WorkerState :=
  { config := none, provider := false, tok := initTokenState }

/-- Outcome of the `fetch(...)` call as awaited by `makeApiRequest`
(`src/worker.ts` lines 173-209): an abort, a network-level failure, or a
completed response with status, content type, body text and headers. -/
inductive FetchOutcome
  | aborted
  | netFailure (emsg : List Char)
  | completed (status : Nat) (contentType : List Char) (body : List Char)
      (hdrs : List (List Char × List Char))
deriving DecidableEq

/-- Oracles for one message: what `provider.refreshToken` resolves to if
invoked, and what the network resolves to if reached. -/
structure WorkerEnv where
  refreshOutcome : RefreshOutcome
  fetchOutcome : FetchOutcome
deriving DecidableEq

/-- Decimal digits of a natural number, for building error message text. -/
def natChars (n : Nat) : List Char := (Nat.repr n).toList

/-- Single-caller effect of `ensureValidToken` as invoked by
`makeApiRequest` (no concurrent caller, `refreshPromise` null on entry):
fail when the provider is missing, return the cached token when fresh,
otherwise run one refresh with the environment's outcome and return the
resulting `accessToken`. -/
def ensureValidTokenStep (env : WorkerEnv) (cfgEarly : Option Int) (now : Int)
    (w : WorkerState) : WorkerState × Except WErr (Option String) :=
  if !w.provider then
    (w, Except.error ⟨ErrCode.INIT_ERROR, str "Worker not initialized", 500⟩)
  else
    match ensureDecision true cfgEarly now false w.tok with
    | TokenDecision.cached t => (w, Except.ok (some t))
    | _ =>
        let st2 := applyRefreshOutcome env.refreshOutcome w.tok
        ({ w with tok := st2 }, Except.ok st2.accessToken)

/-- Completion phase of `makeApiRequest` (`src/worker.ts` lines 173-208):
classify the fetch outcome.  An abort rejects as cancelled and any other
transport failure as a network error; a completed response is encoded
(binary bodies as base64) and then split on `response.ok`
(status 200-299): `ok` yields the success payload, anything else yields an
`HttpError` whose message is `HTTP <status>: <body>`. -/
def finishFetch (env : WorkerEnv) (includeHeaders : Bool) :
    Except WErr ApiResp :=
  match env.fetchOutcome with
  | FetchOutcome.aborted =>
      Except.error ⟨ErrCode.REQUEST_CANCELLED, str "Request was cancelled", 499⟩
  | FetchOutcome.netFailure emsg =>
      Except.error ⟨ErrCode.NETWORK_ERROR, emsg, 500⟩
  | FetchOutcome.completed status ct body hdrs =>
      let bodyOut :=
        if isBinaryContentType ct then BodyOut.base64Of body else BodyOut.text body
      let outHdrs := if includeHeaders then hdrs else []
      if 200 ≤ status && status ≤ 299 then
        Except.ok ⟨bodyOut, status, ct, outHdrs⟩
      else
        Except.error
          ⟨ErrCode.HTTP_ERROR,
           str "HTTP " ++ natChars status ++ str ": " ++ body, 500⟩

/-- Embedding of `makeApiRequest` (`src/worker.ts` lines 130-209) for one
request: fail on a missing config, then on a disallowed domain; strip the
broker flags (`requiresAuth` defaults to true unless explicitly `false`,
`includeHeaders` only when explicitly `true`); when auth is required, run
`ensureValidToken` and propagate its error; finally classify the network
outcome.  FormData reconstruction and header synthesis are pure payload
plumbing outside the embedded core. -/
def makeApiRequest (env : WorkerEnv) (now : Int) (w : WorkerState)
    (url : Option (List Char × List Char))
    (requiresAuthOpt includeHeadersOpt : Option Bool) :
    WorkerState × Except WErr ApiResp :=
  match w.config with
  | none =>
      (w, Except.error ⟨ErrCode.INIT_ERROR, str "Worker not initialized", 500⟩)
  | some cfg =>
      if !validateDomain cfg.allowedDomains url then
        (w, Except.error ⟨ErrCode.DOMAIN_NOT_ALLOWED, str "Domain not allowed", 403⟩)
      else
        let requiresAuth := requiresAuthOpt != some false
        let includeHeaders := includeHeadersOpt == some true
        if requiresAuth then
          match ensureValidTokenStep env cfg.refreshEarlyMs now w with
          | (w2, Except.error e) => (w2, Except.error e)
          | (w2, Except.ok _) => (w2, finishFetch env includeHeaders)
        else (w, finishFetch env includeHeaders)

/-- Outcome of the dynamic provider call `provider[method](...args)` in the
AUTH_CALL handler (`src/worker.ts` lines 345-358): an error result carrying
the provider's status, a success with null data, or a `TokenInfo`. -/
inductive ProviderCallOutcome
  | failure (status : Nat)
  | nullInfo
  | success (info : TokenInfo)
deriving DecidableEq

/-- Inbound messages (`MainToWorkerMessage`).  SETUP carries the config and
whether the provider build succeeds (registry lookups and preset builds
throw on failure, caught by the handler) together with the failure reason;
FETCH carries the parsed target URL and the broker flags; AUTH_CALL carries
the method name, whether the provider exposes it, the `emitEvent` flag and
the provider outcome; PING carries its optional timestamp. -/
inductive InMsg
  | setup (cfg : WCfg) (buildOk : Bool) (failReason : List Char)
  | fetchMsg (id : Nat) (url : Option (List Char × List Char))
      (requiresAuthOpt includeHeadersOpt : Option Bool)
  | authCall (id : Nat) (method : List Char) (methodExists : Bool)
      (emitEvent : Option Bool) (outcome : ProviderCallOutcome)
  | cancel (id : Nat)
  | ping (id : Nat) (tsGiven : Option Int)
  | unknownMsg (id : Nat)

/-- Outbound messages (`WorkerToMainMessage`) as posted by the helpers in
`worker-post.ts`: READY, SETUP_ERROR, FETCH_RESULT, FETCH_ERROR (message
text plus the error result's status), ERROR (typed error addressed to a
correlation id), AUTH_STATE_CHANGED, AUTH_CALL_RESULT and PONG. -/
inductive OutMsg
  | ready
  | setupError (reason : List Char)
  | fetchResult (id : Nat) (resp : ApiResp)
  | fetchError (id : Nat) (errText : List Char) (status : Option Nat)
  | errorOut (id : Nat) (code : ErrCode) (status : Nat)
  | authStateChanged (authenticated : Bool) (expiresAt : Option Int) (user : UserVal)
  | authCallResult (id : Nat) (authenticated : Bool) (expiresAt : Option Int)
      (user : UserVal)
  | pong (id : Nat) (ts : Int)
deriving DecidableEq

/-- Embedding of the `self.onmessage` dispatcher (`src/worker.ts` lines
266-406), one inbound message to a new state and posted messages.
SETUP assigns `config` before building the provider, so a failed build
leaves the fresh config in place while `provider` keeps its previous value
and SETUP_ERROR reports the reason.  FETCH runs `makeApiRequest` and posts
FETCH_RESULT on success or FETCH_ERROR with the error message and result
status.  AUTH_CALL rejects a missing provider with the init error and an
unknown method or null data with UNEXPECTED; a provider failure is forwarded
as a typed ERROR to the originating id; success merges the `TokenInfo`
(emitting AUTH_STATE_CHANGED unless `emitEvent` is `false`) and always posts
AUTH_CALL_RESULT with the derived snapshot.  CANCEL aborts a registered
controller and posts nothing.  PING posts PONG with the given or current
timestamp unconditionally.  Unknown kinds post the UNKNOWN_MESSAGE error. -/
def workerHandle (env : WorkerEnv) (now : Int) (w : WorkerState) :
    InMsg → WorkerState × List OutMsg
  | InMsg.setup cfg buildOk failReason =>
      let w1 := { w with config := some cfg }
      if buildOk then ({ w1 with provider := true }, [OutMsg.ready])
      else (w1, [OutMsg.setupError failReason])
  | InMsg.fetchMsg id url ra ih =>
      match makeApiRequest env now w url ra ih with
      | (w2, Except.ok resp) => (w2, [OutMsg.fetchResult id resp])
      | (w2, Except.error e) => (w2, [OutMsg.fetchError id e.msg (some e.status)])
  | InMsg.authCall id _method methodExists emitEvent outcome =>
      if !w.provider then (w, [OutMsg.errorOut id ErrCode.INIT_ERROR 500])
      else if !methodExists then (w, [OutMsg.errorOut id ErrCode.UNEXPECTED 500])
      else
        match outcome with
        | ProviderCallOutcome.failure s =>
            (w, [OutMsg.errorOut id ErrCode.PROVIDER_ERROR s])
        | ProviderCallOutcome.nullInfo =>
            (w, [OutMsg.errorOut id ErrCode.UNEXPECTED 500])
        | ProviderCallOutcome.success info =>
            let tok2 := setTokenState info w.tok
            let auth := authenticatedNow tok2 now
            let events :=
              if emitEvent.getD true then
                [OutMsg.authStateChanged auth tok2.expiresAt tok2.currentUser]
              else []
            ({ w with tok := tok2 },
             events ++ [OutMsg.authCallResult id auth tok2.expiresAt tok2.currentUser])
  | InMsg.cancel _ => (w, [])
  | InMsg.ping id tsGiven => (w, [OutMsg.pong id (tsGiven.getD now)])
  | InMsg.unknownMsg id => (w, [OutMsg.errorOut id ErrCode.UNKNOWN_MESSAGE 400])

/-! ### Host dispatcher

Embedding of the host-side correlation table, FIFO queue and timeout logic
(`src/client.ts`): `sendMessageQueued` (lines 492-515), the per-request
promise wiring in `fetchWithId` / `call` / `ping`, and
`handleWorkerMessage` (lines 124-209). -/

/-- Settlement state of the promise handed to the public caller. -/
inductive PromiseState
  | unsettled
  | resolvedOk (status : Nat)
  | resolvedHttpErr (status : Nat)
  | resolvedNetErr
  | resolvedOkOther
  | rejectedTimeout
  | rejectedCancelled
  | rejectedDestroyed
deriving DecidableEq

/-- Host dispatcher state: ids present in the `pendingRequests` correlation
table, ids of queue items not yet sent, and each public promise's state. -/
structure HostState where
  pending : List Nat
  queue : List Nat
  settled : Nat → PromiseState

/-- The host state with no outstanding requests. -/
def initHost : HostState :=
  { pending := [], queue := [], settled := fun _ => PromiseState.unsettled }

/-- Issue a request: the per-request wiring first registers the id in
`pendingRequests`, then `sendMessageQueued` pushes the queue item (arming
its timeout at enqueue time). -/
def hostEnqueue (id : Nat) (s : HostState) : HostState :=
  { s with pending := s.pending ++ [id], queue := s.queue ++ [id] }

/-- The timeout callback armed in `sendMessageQueued` (lines 494-501):
splice the item out of the queue if still unsent, delete the
`pendingRequests` entry, and reject the inner promise (the rejection itself
is delivered to `innerRejectionHandler`). -/
def timeoutHandler (id : Nat) (s : HostState) : HostState :=
  { s with queue := s.queue.erase id, pending := s.pending.erase id }

/-- The rejection handler attached to `sendMessageQueued`'s promise by
`fetchWithId` (lines 280-286) and by `call` / `ping`: look the id up in
`pendingRequests` and, only if an entry is still present, delete it and
reject the public caller's promise. -/
def innerRejectionHandler (id : Nat) (s : HostState) : HostState :=
  if id ∈ s.pending then
    { s with pending := s.pending.erase id,
             settled := fun j =>
               if j = id then PromiseState.rejectedTimeout else s.settled j }
  else s

/-- The complete host-side effect of a request timeout as the code executes
it: the timeout callback runs, then its rejection reaches the attached
handler. -/
def hostTimeout (id : Nat) (s : HostState) : HostState :=
  innerRejectionHandler id (timeoutHandler id s)

/-- Embedding of `handleWorkerMessage` (`src/client.ts` lines 124-209).
FETCH_RESULT and FETCH_ERROR resolve the pending entry (a FETCH_ERROR with
a numeric status becomes an HTTP-error result, one without becomes a
network-error result); PONG and AUTH_CALL_RESULT resolve it with a success
result; READY, SETUP_ERROR and AUTH_STATE_CHANGED only notify listeners.
An ERROR message matches no branch: the legacy `type === MSG.RESULT`
comparison can never hold because the current message-constant table has no
RESULT key (the property access yields `undefined`), so the handler returns
with the pending entry untouched. -/
def hostHandleMsg (s : HostState) : OutMsg → HostState
  | OutMsg.fetchResult id resp =>
      if id ∈ s.pending then
        { s with pending := s.pending.erase id,
                 settled := fun j =>
                   if j = id then PromiseState.resolvedOk resp.status
                   else s.settled j }
      else s
  | OutMsg.fetchError id _ statusOpt =>
      if id ∈ s.pending then
        { s with pending := s.pending.erase id,
                 settled := fun j =>
                   if j = id then
                     match statusOpt with
                     | some n => PromiseState.resolvedHttpErr n
                     | none => PromiseState.resolvedNetErr
                   else s.settled j }
      else s
  | OutMsg.errorOut _ _ _ => s
  | OutMsg.authCallResult id _ _ _ =>
      if id ∈ s.pending then
        { s with pending := s.pending.erase id,
                 settled := fun j =>
                   if j = id then PromiseState.resolvedOkOther else s.settled j }
      else s
  | OutMsg.pong id _ =>
      if id ∈ s.pending then
        { s with pending := s.pending.erase id,
                 settled := fun j =>
                   if j = id then PromiseState.resolvedOkOther else s.settled j }
      else s
  | OutMsg.ready => s
  | OutMsg.setupError _ => s
  | OutMsg.authStateChanged _ _ _ => s

/-- A worker that completed SETUP with an empty allow-list and no explicit
refresh window: the READY state used for concrete runs. -/
def readyWorker : WorkerState :=
  { config := some { allowedDomains := [], refreshEarlyMs := none },
    provider := true, tok := initTokenState }

/-- Check whether a posted message list contains a FETCH_RESULT (a success
outcome for a fetch). -/
def isFetchSuccess (msgs : List OutMsg) : Bool :=
  msgs.any fun m =>
    match m with
    | OutMsg.fetchResult _ _ => true
    | _ => false

/-! ## Theorems -/

/-- C2: for every prior token state and every partial `TokenInfo`,
`setTokenState` updates each of the four fields exactly when the
corresponding key is present (a present key with value null sets the field
to null; an absent key leaves the field unchanged), witnessed also on the
spec's concrete field-preservation example. -/
theorem c2_setTokenState_smart_merge :
    (∀ (st : TokenState) (info : TokenInfo) (v : Option String),
        info.token = some v → (setTokenState info st).accessToken = v) ∧
    (∀ (st : TokenState) (info : TokenInfo),
        info.token = none → (setTokenState info st).accessToken = st.accessToken) ∧
    (∀ (st : TokenState) (info : TokenInfo) (v : Option Int),
        info.expiresAt = some v → (setTokenState info st).expiresAt = v) ∧
    (∀ (st : TokenState) (info : TokenInfo),
        info.expiresAt = none → (setTokenState info st).expiresAt = st.expiresAt) ∧
    (∀ (st : TokenState) (info : TokenInfo) (v : UserVal),
        info.user = some v → (setTokenState info st).currentUser = v) ∧
    (∀ (st : TokenState) (info : TokenInfo),
        info.user = none → (setTokenState info st).currentUser = st.currentUser) ∧
    (∀ (st : TokenState) (info : TokenInfo) (v : Option String),
        info.refreshToken = some v → (setTokenState info st).refreshToken = v) ∧
    (∀ (st : TokenState) (info : TokenInfo),
        info.refreshToken = none →
          (setTokenState info st).refreshToken = st.refreshToken) ∧
    (setTokenState { user := some (UserVal.obj 2) }
        ⟨some "A", none, UserVal.obj 1, none⟩ =
      ⟨some "A", none, UserVal.obj 2, none⟩) ∧
    (setTokenState { token := some none }
        ⟨some "A", none, UserVal.obj 1, none⟩ =
      ⟨none, none, UserVal.obj 1, none⟩) := by
  refine ⟨?_, ?_, ?_, ?_, ?_, ?_, ?_, ?_, by decide, by decide⟩
  · intro st info v h; simp [setTokenState, h]
  · intro st info h; simp [setTokenState, h]
  · intro st info v h; simp [setTokenState, h]
  · intro st info h; simp [setTokenState, h]
  · intro st info v h; simp [setTokenState, h]
  · intro st info h; simp [setTokenState, h]
  · intro st info v h; simp [setTokenState, h]
  · intro st info h; simp [setTokenState, h]

/-- Witness for C2 at a concrete input: a partial update whose `token` key is
present overwrites the access token. -/
theorem c2_witness :
    (setTokenState { token := some (some "x") } initTokenState).accessToken =
      some "x" :=
  c2_setTokenState_smart_merge.1 initTokenState { token := some (some "x") }
    (some "x") rfl

/-- C7: a failed refresh clears all four token-state fields to the empty
baseline (null tokens, null expiry, undefined user); and regardless of the
outcome, the completion step leaves the shared pending-refresh reference
cleared, so a subsequent `ensureValidToken` call never has to join a stale
pending operation. -/
theorem c7_refresh_failure_clears_state :
    (∀ st, applyRefreshOutcome RefreshOutcome.failure st =
        { accessToken := none, expiresAt := none, currentUser := UserVal.undef,
          refreshToken := none }) ∧
    (∀ (cfgEarly : Option Int) (now : Int) (o : RefreshOutcome) (m : RefreshMach),
        (rstep cfgEarly now o m RefreshEv.complete).inflight = false) ∧
    (∀ (cfgEarly : Option Int) (now : Int) (st : TokenState),
        ensureDecision true cfgEarly now false st ≠ TokenDecision.joinPending) := by
  refine ⟨fun st => rfl, fun cfgEarly now o m => ?_, fun cfgEarly now st => ?_⟩
  · by_cases h : m.inflight <;> simp [rstep, h]
  · unfold ensureDecision ensureStage2
    rcases hA : st.accessToken with _ | t
    · simp
    · rcases hE : st.expiresAt with _ | e
      · simp
      · simp; split <;> simp

/-- C9 counterexample: the claim quantifies over every state with a non-null
access token, but the cached-token path additionally requires JS truthiness.
With `accessToken` the (non-null) empty string, `expiresAt - now = 120000 >
60000`, and no refresh in flight, `ensureValidToken` starts a refresh
instead of returning the current token immediately. -/
theorem c9_counterexample :
    ensureDecision true none 1000000 false
        ⟨some "", some 1120000, UserVal.undef, none⟩ =
      TokenDecision.startRefresh ∧
    ensureDecision true none 1000000 false
        ⟨some "", some 1120000, UserVal.undef, none⟩ ≠
      TokenDecision.cached "" := by
  decide

/-- Helper: the cached-token return of `ensureValidToken` fires whenever the
token is truthy, the expiry is truthy, and the proactive window has not been
entered. -/
theorem ensureDecision_cached_of_fresh (cfgEarly : Option Int) (now : Int)
    (t : String) (e : Int) (u : UserVal) (r : Option String) (inflight : Bool)
    (hT : t ≠ "") (hZ : e ≠ 0) (hW : e - now > refreshEarlyOf cfgEarly) :
    ensureDecision true cfgEarly now inflight ⟨some t, some e, u, r⟩ =
      TokenDecision.cached t := by
  simp [ensureDecision, hT, hZ, hW]

/-- C9 (amended): when a non-null, non-empty access token exists with a
non-null, non-zero expiry and `expiresAt - now > refreshEarlyMs` (default
60000), `ensureValidToken` returns the cached token immediately with no
refresh; with the default window and a non-negative clock, an expiry 30000
ms away triggers a refresh on the next authenticated call while an expiry
120000 ms away does not. -/
theorem c9_proactive_refresh_window :
    (∀ (cfgEarly : Option Int) (now : Int) (st : TokenState) (t : String)
        (e : Int) (inflight : Bool),
        st.accessToken = some t → t ≠ "" → st.expiresAt = some e → e ≠ 0 →
        e - now > refreshEarlyOf cfgEarly →
        ensureDecision true cfgEarly now inflight st = TokenDecision.cached t) ∧
    (∀ (now : Int) (t : String) (u : UserVal) (r : Option String),
        0 ≤ now → t ≠ "" →
        ensureDecision true (some 60000) now false
            ⟨some t, some (now + 30000), u, r⟩ =
          TokenDecision.startRefresh) ∧
    (∀ (now : Int) (t : String) (u : UserVal) (r : Option String),
        0 ≤ now → t ≠ "" →
        ensureDecision true (some 60000) now false
            ⟨some t, some (now + 120000), u, r⟩ =
          TokenDecision.cached t) := by
  refine ⟨?_, ?_, ?_⟩
  · intro cfgEarly now st t e inflight hA hT hE hZ hW
    obtain ⟨a, x, u, r⟩ := st
    simp only at hA hE
    subst hA; subst hE
    exact ensureDecision_cached_of_fresh cfgEarly now t e u r inflight hT hZ hW
  · intro now t u r hN hT
    simp [ensureDecision, ensureStage2, refreshEarlyOf, hT]
  · intro now t u r hN hT
    have hz : now + 120000 ≠ 0 := by omega
    have hw : now + 120000 - now > refreshEarlyOf (some 60000) := by
      simp [refreshEarlyOf, DEFAULT_REFRESH_EARLY_MS]
    exact ensureDecision_cached_of_fresh (some 60000) now t (now + 120000) u r
      false hT hz hw

/-- Witness for C9 (amended) at concrete inputs: a fresh token is returned
from cache, a token 30 s from expiry triggers a refresh, and a token 120 s
from expiry does not. -/
theorem c9_witness :
    ensureDecision true none 500 false
        ⟨some "tok", some 1000000, UserVal.undef, none⟩ =
      TokenDecision.cached "tok" ∧
    ensureDecision true (some 60000) 0 false
        ⟨some "tok", some 30000, UserVal.undef, none⟩ =
      TokenDecision.startRefresh ∧
    ensureDecision true (some 60000) 0 false
        ⟨some "tok", some 120000, UserVal.undef, none⟩ =
      TokenDecision.cached "tok" :=
  ⟨c9_proactive_refresh_window.1 none 500 _ "tok" 1000000 false rfl (by decide)
      rfl (by decide) (by decide),
   c9_proactive_refresh_window.2.1 0 "tok" UserVal.undef none (by norm_num)
      (by decide),
   c9_proactive_refresh_window.2.2 0 "tok" UserVal.undef none (by norm_num)
      (by decide)⟩

/-- C10: when the access token is present but `expiresAt` is null, the
immediate cached-token path never fires (its guard requires a truthy
expiry): the call joins the pending refresh when one is in flight and starts
one otherwise; yet the derived `authenticated` flag treats the null expiry
as valid, so such a token is re-refreshed on every authenticated call. -/
theorem c10_null_expiry_always_refreshes :
    (∀ (cfgEarly : Option Int) (now : Int) (t : String) (u : UserVal)
        (r : Option String) (inflight : Bool),
        ensureDecision true cfgEarly now inflight ⟨some t, none, u, r⟩ =
          ensureStage2 inflight) ∧
    (∀ (cfgEarly : Option Int) (now : Int) (t : String) (u : UserVal)
        (r : Option String),
        ensureDecision true cfgEarly now true ⟨some t, none, u, r⟩ =
          TokenDecision.joinPending) ∧
    (∀ (cfgEarly : Option Int) (now : Int) (t : String) (u : UserVal)
        (r : Option String),
        ensureDecision true cfgEarly now false ⟨some t, none, u, r⟩ =
          TokenDecision.startRefresh) ∧
    (∀ (now : Int) (t : String) (u : UserVal) (r : Option String), t ≠ "" →
        authenticatedNow ⟨some t, none, u, r⟩ now = true) := by
  refine ⟨fun _ _ _ _ _ _ => rfl, fun _ _ _ _ _ => rfl, fun _ _ _ _ _ => rfl,
    fun now t u r hT => ?_⟩
  simp [authenticatedNow, hT]

/-- Witness for C10 at a concrete input: a non-empty token without an expiry
is authenticated yet still sent through the refresh path. -/
theorem c10_witness :
    authenticatedNow ⟨some "tok", none, UserVal.undef, none⟩ 5 = true ∧
    ensureDecision true none 5 false ⟨some "tok", none, UserVal.undef, none⟩ =
      TokenDecision.startRefresh :=
  ⟨c10_null_expiry_always_refreshes.2.2.2 5 "tok" UserVal.undef none (by decide),
   c10_null_expiry_always_refreshes.2.2.1 none 5 "tok" UserVal.undef none⟩

/-- Helper: `takeWhile` up to the first colon of a single-colon entry
recovers the part before the colon. -/
theorem takeWhile_until_colon (pat rest : List Char) (h : ':' ∉ pat) :
    (pat ++ ':' :: rest).takeWhile (fun c => c != ':') = pat := by
  induction pat with
  | nil => simp [List.takeWhile_cons]
  | cons a as ih =>
      have ha : a ≠ ':' := fun e => h (by simp [e])
      have hrest : ':' ∉ as := fun hm => h (List.mem_cons_of_mem _ hm)
      simp [List.takeWhile_cons, ha, ih hrest]

/-- Helper: `dropWhile` up to the first colon of a single-colon entry
recovers the colon and the part after it. -/
theorem dropWhile_until_colon (pat rest : List Char) (h : ':' ∉ pat) :
    (pat ++ ':' :: rest).dropWhile (fun c => c != ':') = ':' :: rest := by
  induction pat with
  | nil => simp [List.dropWhile_cons]
  | cons a as ih =>
      have ha : a ≠ ':' := fun e => h (by simp [e])
      have hrest : ':' ∉ as := fun hm => h (List.mem_cons_of_mem _ hm)
      simp [List.dropWhile_cons, ha, ih hrest]

/-- Helper: an entry built from a colon-free host pattern, a colon, and a
colon-free port has exactly one colon. -/
theorem count_colon_split (pat rest : List Char) (hp : ':' ∉ pat)
    (hr : ':' ∉ rest) : (pat ++ ':' :: rest).count ':' = 1 := by
  simp [List.count_append, List.count_cons, List.count_eq_zero.mpr hp,
    List.count_eq_zero.mpr hr]

/-- Helper: on a sole-colon entry, `entryAccepts` requires the host pattern
to match and the port to be exactly the entry's port. -/
theorem entryAccepts_port (hostname port pat p0 : List Char)
    (hp : ':' ∉ pat) (h0 : ':' ∉ p0) :
    entryAccepts hostname port (pat ++ ':' :: p0) =
      (hostPatternMatch hostname pat && port == p0) := by
  unfold entryAccepts
  simp only [count_colon_split pat p0 hp h0]
  simp [takeWhile_until_colon pat p0 hp, dropWhile_until_colon pat p0 hp]

/-- Helper: an entry without a sole colon imposes no port requirement. -/
theorem entryAccepts_noport (hostname port entry : List Char)
    (h : entry.count ':' ≠ 1) :
    entryAccepts hostname port entry = hostPatternMatch hostname entry := by
  unfold entryAccepts
  simp [h]

/-- Helper: a wildcard pattern accepts exactly the bare suffix domain and
its dot-separated extensions. -/
theorem wildcard_match (h base : List Char) :
    hostPatternMatch h ('*' :: '.' :: base) = true ↔
      h = base ∨ ∃ pre, h = pre ++ '.' :: base := by
  unfold hostPatternMatch
  simp [List.isSuffixOf_iff_suffix, List.IsSuffix]
  constructor
  · rintro (rfl | ⟨t, rfl⟩)
    · exact Or.inl rfl
    · exact Or.inr ⟨t, rfl⟩
  · rintro (rfl | ⟨pre, rfl⟩)
    · exact Or.inl rfl
    · exact Or.inr ⟨pre, rfl⟩

/-- Helper: a non-wildcard pattern accepts exactly its own hostname. -/
theorem bare_match (h pattern : List Char) (hw : pattern.take 2 ≠ ['*', '.']) :
    hostPatternMatch h pattern = (h == pattern) := by
  unfold hostPatternMatch
  simp [hw]

/-- C3: the allow-list matcher accepts everything when the pattern list is
empty; with a non-empty pattern list an unparseable URL is rejected and a
parsed URL is accepted exactly when some entry matches, where a wildcard
entry matches the bare suffix domain or any of its dot-extensions, a bare
entry requires exact hostname equality, and a sole-colon entry additionally
requires exact port equality; the spec's concrete examples behave as
claimed, including the rejection of `example.com.evil.com`. -/
theorem c3_allow_list_matching :
    (∀ parsed, validateDomain [] parsed = true) ∧
    (∀ ds : List (List Char), ds ≠ [] → validateDomain ds none = false) ∧
    (∀ (ds : List (List Char)) (h p : List Char), ds ≠ [] →
        (validateDomain ds (some (h, p)) = true ↔
          ∃ e ∈ ds, entryAccepts h p e = true)) ∧
    (∀ h p base : List Char, ':' ∉ base →
        (entryAccepts h p ('*' :: '.' :: base) = true ↔
          h = base ∨ ∃ pre, h = pre ++ '.' :: base)) ∧
    (∀ h p pattern : List Char, pattern.count ':' ≠ 1 →
        pattern.take 2 ≠ ['*', '.'] →
        (entryAccepts h p pattern = true ↔ h = pattern)) ∧
    (∀ h p pat p0 : List Char, ':' ∉ pat → ':' ∉ p0 →
        (entryAccepts h p (pat ++ ':' :: p0) = true ↔
          hostPatternMatch h pat = true ∧ p = p0)) ∧
    entryAccepts (str "api.example.com") [] (str "*.example.com") = true ∧
    entryAccepts (str "a.b.example.com") [] (str "*.example.com") = true ∧
    entryAccepts (str "example.com.evil.com") [] (str "*.example.com") = false ∧
    entryAccepts (str "localhost") (str "5173") (str "localhost:5173") = true ∧
    entryAccepts (str "localhost") (str "8080") (str "localhost:5173") = false ∧
    entryAccepts (str "evil.com") (str "5173") (str "localhost:5173") = false := by
  refine ⟨fun parsed => rfl, ?_, ?_, ?_, ?_, ?_,
    by decide, by decide, by decide, by decide, by decide, by decide⟩
  · intro ds hne
    cases ds with
    | nil => exact absurd rfl hne
    | cons a as => simp [validateDomain]
  · intro ds h p hne
    cases ds with
    | nil => exact absurd rfl hne
    | cons a as => simp [validateDomain, List.any_eq_true]
  · intro h p base hbase
    have hcount : ('*' :: '.' :: base).count ':' ≠ 1 := by
      simp [List.count_cons, List.count_eq_zero.mpr hbase]
    rw [entryAccepts_noport h p _ hcount]
    exact wildcard_match h base
  · intro h p pattern hcount hw
    rw [entryAccepts_noport h p pattern hcount, bare_match h pattern hw]
    simp
  · intro h p pat p0 hp h0
    rw [entryAccepts_port h p pat p0 hp h0]
    simp

/-- Witness for C3 at concrete inputs: the empty pattern list accepts an
unparsed URL, a non-empty one rejects it, and a wildcard membership check
derived through the matcher's characterisation accepts `api.example.com`. -/
theorem c3_witness :
    validateDomain [str "example.com"] none = false ∧
    entryAccepts (str "api.example.com") (str "80") (str "*.example.com") = true ∧
    (validateDomain [str "*.example.com"]
        (some (str "api.example.com", str "80")) = true) :=
  ⟨c3_allow_list_matching.2.1 [str "example.com"] (by decide),
   (c3_allow_list_matching.2.2.2.1 (str "api.example.com") (str "80")
       (str "example.com") (by decide)).mpr
     (Or.inr ⟨str "api", by decide⟩),
   (c3_allow_list_matching.2.2.1 [str "*.example.com"] (str "api.example.com")
       (str "80") (by decide)).mpr
     ⟨str "*.example.com", by decide,
      (c3_allow_list_matching.2.2.2.1 (str "api.example.com") (str "80")
          (str "example.com") (by decide)).mpr
        (Or.inr ⟨str "api", by decide⟩)⟩⟩

/-- C5 counterexample: the claim requires every PING received before a
successful SETUP to fail with an initialization error, but the PING handler
never consults the initialization state: in the pristine UNINITIALIZED state
it answers with PONG, not with an error. -/
theorem c5_counterexample :
    workerHandle ⟨RefreshOutcome.nullData, FetchOutcome.aborted⟩ 7 initWorker
        (InMsg.ping 5 (some 123)) =
      (initWorker, [OutMsg.pong 5 123]) ∧
    [OutMsg.pong 5 123] ≠ [OutMsg.errorOut 5 ErrCode.INIT_ERROR 500] :=
  ⟨rfl, by decide⟩

/-- C5 (amended): before any SETUP, every FETCH and every AUTH_CALL fails
with the initialization error, while PING is answered with PONG regardless
of initialization; a failed SETUP leaves the provider unset and reports
SETUP_ERROR with the failure reason, but retains the config assigned before
the failure, and after it AUTH_CALL and authenticated FETCH still fail with
the initialization error. -/
theorem c5_uninitialized_state :
    (∀ (env : WorkerEnv) (now : Int) (id : Nat)
        (url : Option (List Char × List Char)) (ra ih : Option Bool),
        workerHandle env now initWorker (InMsg.fetchMsg id url ra ih) =
          (initWorker,
           [OutMsg.fetchError id (str "Worker not initialized") (some 500)])) ∧
    (∀ (env : WorkerEnv) (now : Int) (id : Nat) (m : List Char) (ex : Bool)
        (ee : Option Bool) (oc : ProviderCallOutcome),
        workerHandle env now initWorker (InMsg.authCall id m ex ee oc) =
          (initWorker, [OutMsg.errorOut id ErrCode.INIT_ERROR 500])) ∧
    (∀ (env : WorkerEnv) (now : Int) (id : Nat) (ts : Option Int),
        workerHandle env now initWorker (InMsg.ping id ts) =
          (initWorker, [OutMsg.pong id (ts.getD now)])) ∧
    (∀ (env : WorkerEnv) (now : Int) (cfg : WCfg) (reason : List Char),
        workerHandle env now initWorker (InMsg.setup cfg false reason) =
          ({ config := some cfg, provider := false, tok := initTokenState },
           [OutMsg.setupError reason])) ∧
    (∀ (env : WorkerEnv) (now : Int) (id : Nat) (m : List Char) (ex : Bool)
        (ee : Option Bool) (oc : ProviderCallOutcome) (cfg : WCfg),
        workerHandle env now
            { config := some cfg, provider := false, tok := initTokenState }
            (InMsg.authCall id m ex ee oc) =
          ({ config := some cfg, provider := false, tok := initTokenState },
           [OutMsg.errorOut id ErrCode.INIT_ERROR 500])) ∧
    (∀ (env : WorkerEnv) (now : Int) (id : Nat) (early : Option Int)
        (url : Option (List Char × List Char)) (ih : Option Bool),
        workerHandle env now
            { config := some { allowedDomains := [], refreshEarlyMs := early },
              provider := false, tok := initTokenState }
            (InMsg.fetchMsg id url (some true) ih) =
          ({ config := some { allowedDomains := [], refreshEarlyMs := early },
             provider := false, tok := initTokenState },
           [OutMsg.fetchError id (str "Worker not initialized") (some 500)])) :=
  ⟨fun _ _ _ _ _ _ => rfl, fun _ _ _ _ _ _ _ => rfl, fun _ _ _ _ => rfl,
   fun _ _ _ _ => rfl, fun _ _ _ _ _ _ _ _ => rfl, fun _ _ _ _ _ _ => rfl⟩

/-- C6 counterexample: a network round trip that completes with HTTP 404
does not yield a success outcome: the worker itself classifies the non-ok
status and posts FETCH_ERROR with the message text `HTTP 404: nope`,
rather than a FETCH_RESULT carrying the raw status. -/
theorem c6_counterexample :
    (workerHandle
        ⟨RefreshOutcome.nullData,
         FetchOutcome.completed 404 (str "text/html") (str "nope") []⟩ 0
        readyWorker (InMsg.fetchMsg 5 none (some false) none)).2 =
      [OutMsg.fetchError 5 (str "HTTP 404: nope") (some 500)] ∧
    isFetchSuccess
      (workerHandle
          ⟨RefreshOutcome.nullData,
           FetchOutcome.completed 404 (str "text/html") (str "nope") []⟩ 0
          readyWorker (InMsg.fetchMsg 5 none (some false) none)).2 = false := by
  constructor
  · rfl
  · rfl

/-- C6 (amended): for a completed round trip the worker itself performs the
ok-versus-error split on `response.ok` (status 200-299): an ok status posts
FETCH_RESULT carrying the raw status, content type and (suitably encoded)
body, while any other status posts FETCH_ERROR whose text embeds the status
and body and whose numeric status is the error definition's 500, not the
response's; the host then resolves FETCH_RESULT as an ok result with the
raw status and FETCH_ERROR with a numeric status as an HTTP-error result. -/
theorem c6_worker_side_classification :
    (∀ (envR : RefreshOutcome) (now : Int) (id : Nat)
        (url : Option (List Char × List Char)) (ih : Option Bool)
        (status : Nat) (ct body : List Char)
        (hdrs : List (List Char × List Char)),
        200 ≤ status → status ≤ 299 →
        workerHandle ⟨envR, FetchOutcome.completed status ct body hdrs⟩ now
            readyWorker (InMsg.fetchMsg id url (some false) ih) =
          (readyWorker,
           [OutMsg.fetchResult id
              ⟨if isBinaryContentType ct then BodyOut.base64Of body
                else BodyOut.text body,
               status, ct, if ih == some true then hdrs else []⟩])) ∧
    (∀ (envR : RefreshOutcome) (now : Int) (id : Nat)
        (url : Option (List Char × List Char)) (ih : Option Bool)
        (status : Nat) (ct body : List Char)
        (hdrs : List (List Char × List Char)),
        ¬ (200 ≤ status ∧ status ≤ 299) →
        workerHandle ⟨envR, FetchOutcome.completed status ct body hdrs⟩ now
            readyWorker (InMsg.fetchMsg id url (some false) ih) =
          (readyWorker,
           [OutMsg.fetchError id
              (str "HTTP " ++ natChars status ++ str ": " ++ body) (some 500)])) ∧
    (∀ (s : HostState) (id : Nat) (resp : ApiResp), id ∈ s.pending →
        (hostHandleMsg s (OutMsg.fetchResult id resp)).settled id =
          PromiseState.resolvedOk resp.status) ∧
    (∀ (s : HostState) (id : Nat) (txt : List Char) (n : Nat), id ∈ s.pending →
        (hostHandleMsg s (OutMsg.fetchError id txt (some n))).settled id =
          PromiseState.resolvedHttpErr n) := by
  refine ⟨?_, ?_, ?_, ?_⟩
  · intro envR now id url ih status ct body hdrs h1 h2
    simp [workerHandle, makeApiRequest, ensureValidTokenStep, finishFetch,
      readyWorker, validateDomain, h1, h2]
  · intro envR now id url ih status ct body hdrs h
    have hfalse : (200 ≤ status && status ≤ 299) = false := by
      rcases Nat.lt_or_ge status 200 with hlt | hge
      · simp [Nat.not_le_of_lt hlt]
      · have : ¬ status ≤ 299 := fun hle => h ⟨hge, hle⟩
        simp [this]
    simp [workerHandle, makeApiRequest, ensureValidTokenStep, finishFetch,
      readyWorker, validateDomain, hfalse]
  · intro s id resp hmem
    simp [hostHandleMsg, hmem]
  · intro s id txt n hmem
    simp [hostHandleMsg, hmem]

/-- Witness for C6 (amended) at concrete inputs: a 204 response is posted as
FETCH_RESULT with status 204, a 404 response as the HTTP 404 FETCH_ERROR,
and the host resolves both shapes accordingly. -/
theorem c6_witness :
    workerHandle ⟨RefreshOutcome.nullData,
        FetchOutcome.completed 204 (str "application/json") (str "") []⟩ 0
        readyWorker (InMsg.fetchMsg 9 none (some false) none) =
      (readyWorker,
       [OutMsg.fetchResult 9 ⟨BodyOut.text (str ""), 204,
          str "application/json", []⟩]) ∧
    workerHandle ⟨RefreshOutcome.nullData,
        FetchOutcome.completed 404 (str "application/json") (str "e") []⟩ 0
        readyWorker (InMsg.fetchMsg 9 none (some false) none) =
      (readyWorker,
       [OutMsg.fetchError 9 (str "HTTP 404: e") (some 500)]) ∧
    (hostHandleMsg (hostEnqueue 9 initHost)
        (OutMsg.fetchResult 9 ⟨BodyOut.text (str ""), 204,
           str "application/json", []⟩)).settled 9 =
      PromiseState.resolvedOk 204 ∧
    (hostHandleMsg (hostEnqueue 9 initHost)
        (OutMsg.fetchError 9 (str "HTTP 404: e") (some 500))).settled 9 =
      PromiseState.resolvedHttpErr 500 :=
  ⟨c6_worker_side_classification.1 RefreshOutcome.nullData 0 9 none none 204
      (str "application/json") (str "") [] (by decide) (by decide),
   c6_worker_side_classification.2.1 RefreshOutcome.nullData 0 9 none none 404
      (str "application/json") (str "e") [] (by decide),
   c6_worker_side_classification.2.2.1 (hostEnqueue 9 initHost) 9
      ⟨BodyOut.text (str ""), 204, str "application/json", []⟩ (by decide),
   c6_worker_side_classification.2.2.2 (hostEnqueue 9 initHost) 9
      (str "HTTP 404: e") 500 (by decide)⟩

/-- C4: host-side effect of a queue timeout, evaluated at the failing input.
The confirmed parts hold: the timed-out item is removed from the queue, its
pending-request entry is deleted, and a late response for that id is a
no-op.  But the public caller's promise does not reject: the timeout
callback deletes the `pendingRequests` entry before the rejection reaches
the attached handler, so the handler finds no entry and the promise stays
unsettled forever, contradicting the claimed timeout rejection. -/
theorem c4_timeout_leaves_promise_unsettled :
    (hostTimeout 1 (hostEnqueue 1 initHost)).queue = [] ∧
    (hostTimeout 1 (hostEnqueue 1 initHost)).pending = [] ∧
    (hostTimeout 1 (hostEnqueue 1 initHost)).settled 1 =
      PromiseState.unsettled ∧
    (hostTimeout 1 (hostEnqueue 1 initHost)).settled 1 ≠
      PromiseState.rejectedTimeout ∧
    hostHandleMsg (hostTimeout 1 (hostEnqueue 1 initHost))
        (OutMsg.fetchResult 1
          ⟨BodyOut.text (str "ok"), 200, str "text/plain", []⟩) =
      hostTimeout 1 (hostEnqueue 1 initHost) ∧
    hostHandleMsg (hostTimeout 1 (hostEnqueue 1 initHost))
        (OutMsg.fetchError 1 (str "x") (some 500)) =
      hostTimeout 1 (hostEnqueue 1 initHost) :=
  ⟨rfl, rfl, rfl, by decide, rfl, rfl⟩

/-- C8: evaluated at the failing input.  The worker half of the claim holds:
a provider failure during AUTH_CALL is converted into a typed ERROR response
addressed to the originating correlation id.  But the host never resolves
the caller's promise with a failure result: `handleWorkerMessage` has no
branch for the ERROR message type (its legacy RESULT comparison can never
match), so the pending entry survives, the promise stays unsettled, and even
the later queue timeout leaves it unsettled. -/
theorem c8_auth_error_response_is_dropped_by_host :
    (workerHandle ⟨RefreshOutcome.nullData, FetchOutcome.aborted⟩ 0 readyWorker
        (InMsg.authCall 2 (str "login") true (some true)
          (ProviderCallOutcome.failure 401))).2 =
      [OutMsg.errorOut 2 ErrCode.PROVIDER_ERROR 401] ∧
    2 ∈ (hostEnqueue 2 initHost).pending ∧
    hostHandleMsg (hostEnqueue 2 initHost)
        (OutMsg.errorOut 2 ErrCode.PROVIDER_ERROR 401) =
      hostEnqueue 2 initHost ∧
    (hostEnqueue 2 initHost).settled 2 = PromiseState.unsettled ∧
    (hostTimeout 2 (hostEnqueue 2 initHost)).settled 2 =
      PromiseState.unsettled :=
  ⟨rfl, by decide, rfl, rfl, rfl⟩

/-- Helper: when the cached-token guard fails, the head of
`ensureValidToken` reduces to its second stage. -/
theorem ensureDecision_stale (cfgEarly : Option Int) (now : Int)
    (st : TokenState) (inflight : Bool)
    (hstale : tokenFresh cfgEarly now st = false) :
    ensureDecision true cfgEarly now inflight st = ensureStage2 inflight := by
  unfold ensureDecision
  unfold tokenFresh at hstale
  rcases hA : st.accessToken with _ | t
  · simp [hA]
  · rcases hE : st.expiresAt with _ | e
    · simp [hA, hE]
    · rw [hA, hE] at hstale
      have hg : (t != "" && e != 0 &&
          decide (e - now > refreshEarlyOf cfgEarly)) = false := hstale
      simp [hA, hE, hg]

/-- Helper: while a refresh is in flight, the head of `ensureValidToken`
never starts another one. -/
theorem ensureDecision_inflight_ne_start (cfgEarly : Option Int) (now : Int)
    (st : TokenState) :
    ensureDecision true cfgEarly now true st ≠ TokenDecision.startRefresh := by
  unfold ensureDecision ensureStage2
  rcases st.accessToken with _ | t
  · simp
  · rcases st.expiresAt with _ | e
    · simp
    · simp only [Bool.not_true, Bool.false_eq_true, if_false]
      split <;> simp

/-- Helper: running the enter events of a caller list from any machine with
a refresh in flight over the stale state preserves the state, the in-flight
flag and the invocation count, keeps every waiting caller waiting, and
leaves every listed caller that began idle or waiting in the waiting
state. -/
theorem rexec_enters_invariant (cfgEarly : Option Int) (now : Int)
    (o : RefreshOutcome) (st0 : TokenState)
    (hstale : tokenFresh cfgEarly now st0 = false) :
    ∀ (l : List Nat) (m : RefreshMach), m.st = st0 → m.inflight = true →
      (rexec cfgEarly now o (l.map RefreshEv.enter) m).st = st0 ∧
      (rexec cfgEarly now o (l.map RefreshEv.enter) m).inflight = true ∧
      (rexec cfgEarly now o (l.map RefreshEv.enter) m).refreshCount =
        m.refreshCount ∧
      (∀ i, m.callers i = CallerStatus.waiting →
        (rexec cfgEarly now o (l.map RefreshEv.enter) m).callers i =
          CallerStatus.waiting) ∧
      (∀ i ∈ l,
        (m.callers i = CallerStatus.idle ∨ m.callers i = CallerStatus.waiting) →
        (rexec cfgEarly now o (l.map RefreshEv.enter) m).callers i =
          CallerStatus.waiting) := by
  intro l
  induction l with
  | nil =>
      intro m hst hin
      exact ⟨hst, hin, rfl, fun i hw => hw, fun i hi => absurd hi (by simp)⟩
  | cons a as ih =>
      intro m hst hin
      have hstale' : tokenFresh cfgEarly now m.st = false := by
        rw [hst]; exact hstale
      have hstep : rstep cfgEarly now o m (RefreshEv.enter a) =
          if m.callers a = CallerStatus.idle then
            { m with callers := fun j =>
                if j = a then CallerStatus.waiting else m.callers j }
          else m := by
        simp only [rstep]
        by_cases hidle : m.callers a = CallerStatus.idle
        · rw [if_pos hidle, if_pos hidle,
            ensureDecision_stale cfgEarly now m.st m.inflight hstale', hin]
          rfl
        · rw [if_neg hidle, if_neg hidle]
      have hrun : rexec cfgEarly now o ((a :: as).map RefreshEv.enter) m =
          rexec cfgEarly now o (as.map RefreshEv.enter)
            (rstep cfgEarly now o m (RefreshEv.enter a)) := rfl
      by_cases hidle : m.callers a = CallerStatus.idle
      · set m1 : RefreshMach :=
          { m with callers := fun j =>
              if j = a then CallerStatus.waiting else m.callers j } with hm1
        have hstep1 : rstep cfgEarly now o m (RefreshEv.enter a) = m1 := by
          rw [hstep, if_pos hidle]
        obtain ⟨q1, q2, q3, q4, q5⟩ :=
          ih m1 (by rw [hm1]; exact hst) (by rw [hm1]; exact hin)
        rw [hrun, hstep1]
        refine ⟨q1, q2, q3, ?_, ?_⟩
        · intro i hw
          refine q4 i ?_
          show (if i = a then CallerStatus.waiting else m.callers i) =
            CallerStatus.waiting
          by_cases hia : i = a <;> simp [hia, hw]
        · intro i hi hcase
          rcases List.mem_cons.mp hi with rfl | hias
          · refine q4 i ?_
            show (if i = i then CallerStatus.waiting else m.callers i) =
              CallerStatus.waiting
            simp
          · refine q5 i hias ?_
            show (if i = a then CallerStatus.waiting else m.callers i) =
                CallerStatus.idle ∨
              (if i = a then CallerStatus.waiting else m.callers i) =
                CallerStatus.waiting
            by_cases hia : i = a
            · simp [hia]
            · simpa [hia] using hcase
      · have hstep1 : rstep cfgEarly now o m (RefreshEv.enter a) = m := by
          rw [hstep, if_neg hidle]
        obtain ⟨q1, q2, q3, q4, q5⟩ := ih m hst hin
        rw [hrun, hstep1]
        refine ⟨q1, q2, q3, q4, ?_⟩
        intro i hi hcase
        rcases List.mem_cons.mp hi with rfl | hias
        · rcases hcase with hc | hc
          · exact absurd hc hidle
          · exact q4 i hc
        · exact q5 i hias hcase

/-- C1: at most one refresh is in flight.  First, any `ensureValidToken`
entry that finds the shared pending-refresh reference non-null leaves the
invocation count, the in-flight flag and the token state untouched — it only
awaits the pending operation.  Second, for any number of callers entering in
any order against a non-fresh token before the refresh completes, exactly
one `provider.refreshToken` invocation happens and every caller ends up with
the same resulting token, the post-refresh `accessToken`. -/
theorem c1_single_flight_refresh :
    (∀ (cfgEarly : Option Int) (now : Int) (o : RefreshOutcome)
        (m : RefreshMach) (i : Nat), m.inflight = true →
        (rstep cfgEarly now o m (RefreshEv.enter i)).refreshCount =
          m.refreshCount ∧
        (rstep cfgEarly now o m (RefreshEv.enter i)).inflight = true ∧
        (rstep cfgEarly now o m (RefreshEv.enter i)).st = m.st) ∧
    (∀ (cfgEarly : Option Int) (now : Int) (o : RefreshOutcome)
        (st0 : TokenState) (l : List Nat), l ≠ [] →
        tokenFresh cfgEarly now st0 = false →
        (rexec cfgEarly now o (l.map RefreshEv.enter ++ [RefreshEv.complete])
            (initMach st0)).refreshCount = 1 ∧
        (∀ i ∈ l,
          (rexec cfgEarly now o
              (l.map RefreshEv.enter ++ [RefreshEv.complete])
              (initMach st0)).callers i =
            CallerStatus.done (applyRefreshOutcome o st0).accessToken)) := by
  constructor
  · intro cfgEarly now o m i hin
    simp only [rstep]
    by_cases hidle : m.callers i = CallerStatus.idle
    · rw [if_pos hidle]
      rcases hD : ensureDecision true cfgEarly now m.inflight m.st with _ | t | _ | _
      · exact ⟨rfl, hin, rfl⟩
      · exact ⟨rfl, hin, rfl⟩
      · exact ⟨rfl, hin, rfl⟩
      · rw [hin] at hD
        exact absurd hD (ensureDecision_inflight_ne_start cfgEarly now m.st)
    · rw [if_neg hidle]
      exact ⟨rfl, hin, rfl⟩
  · intro cfgEarly now o st0 l hne hstale
    cases l with
    | nil => exact absurd rfl hne
    | cons a as =>
        set m1 : RefreshMach :=
          { st := st0, inflight := true, refreshCount := 1,
            callers := fun j =>
              if j = a then CallerStatus.waiting else CallerStatus.idle }
          with hm1
        have hstep1 :
            rstep cfgEarly now o (initMach st0) (RefreshEv.enter a) = m1 := by
          simp only [rstep]
          rw [if_pos (show (initMach st0).callers a = CallerStatus.idle from rfl)]
          rw [show (initMach st0).inflight = false from rfl,
            show (initMach st0).st = st0 from rfl,
            ensureDecision_stale cfgEarly now st0 false hstale]
          rfl
        obtain ⟨q1, q2, q3, q4, q5⟩ :=
          rexec_enters_invariant cfgEarly now o st0 hstale as m1
            (by rw [hm1]) (by rw [hm1])
        set m2 := rexec cfgEarly now o (as.map RefreshEv.enter) m1 with hm2
        have hsplit :
            rexec cfgEarly now o
                ((a :: as).map RefreshEv.enter ++ [RefreshEv.complete])
                (initMach st0) =
              rstep cfgEarly now o m2 RefreshEv.complete := by
          simp only [rexec, List.map_cons, List.foldl_append, List.foldl_cons,
            List.foldl_nil, hstep1]
          rfl
        have hwait : ∀ i ∈ a :: as, m2.callers i = CallerStatus.waiting := by
          intro i hi
          rcases List.mem_cons.mp hi with rfl | hias
          · exact q4 i (by rw [hm1]; simp)
          · refine q5 i hias ?_
            rw [hm1]
            by_cases hia : i = a <;> simp [hia]
        have hcomplete : rstep cfgEarly now o m2 RefreshEv.complete =
            { st := applyRefreshOutcome o m2.st, inflight := false,
              refreshCount := m2.refreshCount,
              callers := fun j =>
                if m2.callers j = CallerStatus.waiting then
                  CallerStatus.done (applyRefreshOutcome o m2.st).accessToken
                else m2.callers j } := by
          simp only [rstep]
          rw [if_pos q2]
        rw [hsplit, hcomplete]
        refine ⟨q3, ?_⟩
        intro i hi
        simp only
        rw [if_pos (hwait i hi), q1]

/-- Witness for C1, part one at a machine with a refresh in flight and part
two with two concurrent callers against an empty token state and a
successful refresh outcome: one invocation, both callers resolved with the
new token. -/
theorem c1_witness :
    (rstep none 0 RefreshOutcome.nullData
        { st := initTokenState, inflight := true, refreshCount := 1,
          callers := fun _ => CallerStatus.idle }
        (RefreshEv.enter 3)).refreshCount = 1 ∧
    (rexec none 0 (RefreshOutcome.success { token := some (some "t2") })
        ([0, 1].map RefreshEv.enter ++ [RefreshEv.complete])
        (initMach initTokenState)).refreshCount = 1 ∧
    (rexec none 0 (RefreshOutcome.success { token := some (some "t2") })
        ([0, 1].map RefreshEv.enter ++ [RefreshEv.complete])
        (initMach initTokenState)).callers 0 =
      CallerStatus.done (some "t2") ∧
    (rexec none 0 (RefreshOutcome.success { token := some (some "t2") })
        ([0, 1].map RefreshEv.enter ++ [RefreshEv.complete])
        (initMach initTokenState)).callers 1 =
      CallerStatus.done (some "t2") :=
  ⟨(c1_single_flight_refresh.1 none 0 RefreshOutcome.nullData
      { st := initTokenState, inflight := true, refreshCount := 1,
        callers := fun _ => CallerStatus.idle } 3 rfl).1,
   (c1_single_flight_refresh.2 none 0
      (RefreshOutcome.success { token := some (some "t2") }) initTokenState
      [0, 1] (by decide) rfl).1,
   (c1_single_flight_refresh.2 none 0
      (RefreshOutcome.success { token := some (some "t2") }) initTokenState
      [0, 1] (by decide) rfl).2 0 (by decide),
   (c1_single_flight_refresh.2 none 0
      (RefreshOutcome.success { token := some (some "t2") }) initTokenState
      [0, 1] (by decide) rfl).2 1 (by decide)⟩

end FetchGuard
